import Mathlib

/-!
Verification of the graphbus-ui example agents.

Shallow embedding of the four Python agent classes:
`ConversationAgent` (src/agents/conversation_agent.py),
`IntentClassifierAgent` (src/agents/intent_classifier_agent.py),
`ResponseGeneratorAgent` (src/agents/response_generator_agent.py) and
`RoomManager` (src/agents/room_manager.py).

Mutable `self` state becomes explicit state passing: each method takes the
agent state and returns the result together with the new state.  Python
`dict` attributes keyed by strings become association lists preserving
insertion order; Python `set` values become duplicate-free lists with a
set-like insert.  Python `float` literals (only `0.9`, `0.7`, `0.6`, all
exactly representable) become rationals.  Result dicts become structures
with `Option` fields for keys that are present only on some paths.
-/

namespace GraphbusUI

/-- A conversation record, Python `{"role": role, "content": content}`. -/
abbrev Msg := String × String

/-- Result dict of `ConversationAgent.add_message`. -/
structure AddResult where
  success : Bool
  message_count : Nat
deriving DecidableEq

/-- Result dict of `ConversationAgent.clear_history`. -/
structure ClearResult where
  success : Bool
  cleared_count : Nat
deriving DecidableEq

/-- `ConversationAgent.add_message`: appends `{"role": role, "content": content}`
to `self.history` and returns `{"success": True, "message_count": len(self.history)}`. -/
def add_message (history : List Msg) (role content : String) :
    AddResult × List Msg :=
  let h := history ++ [(role, content)]
  ({ success := true, message_count := h.length }, h)

/-- Python slice `l[s:]` for an `int` start `s`: a negative start counts from
the end (clamped at the front), a non-negative start drops that many leading
elements (clamped at the back). -/
def pySliceFrom {α : Type} (l : List α) (s : Int) : List α :=
  if s < 0 then l.drop (l.length - s.natAbs) else l.drop s.toNat

/-- `ConversationAgent.get_history`: `return self.history[-limit:]`. -/
def get_history (history : List Msg) (limit : Int) : List Msg :=
  pySliceFrom history (-limit)

/-- `ConversationAgent.clear_history`: records `len(self.history)`, resets
`self.history` to `[]`, returns `{"success": True, "cleared_count": count}`. -/
def clear_history (history : List Msg) : ClearResult × List Msg :=
  ({ success := true, cleared_count := history.length }, [])

/-- A fresh `ConversationAgent` receiving the calls
`add_message(role, content)` for each listed pair, in order. -/
def run_add_messages (msgs : List Msg) : List Msg :=
  msgs.foldl (fun h m => (add_message h m.1 m.2).2) []

/-- `needle` matches at the start of `haystack` (helper for Python `in`). -/
def listStartsWith : List Char → List Char → Bool
  | _, [] => true
  | [], _ :: _ => false
  | c :: cs, n :: ns => (c == n) && listStartsWith cs ns

/-- Python substring test `needle in haystack` on the character lists. -/
def containsSub : List Char → List Char → Bool
  | [], n => n.isEmpty
  | c :: t, n => listStartsWith (c :: t) n || containsSub t n

/-- Result dict of `IntentClassifierAgent.classify_intent`:
`{"intent": ..., "confidence": ...}`. -/
structure IntentResult where
  intent : String
  confidence : ℚ
deriving DecidableEq

/-- `IntentClassifierAgent.classify_intent`: lowercases the message, then the
keyword cascade — greeting words, farewell words, `"?"`, else statement.
The `"?"` test is on the original (not lowercased) message, as in the source. -/
def classify_intent (message : String) : IntentResult :=
  let m := message.data.map Char.toLower
  if (["hello", "hi", "hey"].any fun w => containsSub m w.data) then
    { intent := "greeting", confidence := 9/10 }
  else if (["bye", "goodbye", "see you"].any fun w => containsSub m w.data) then
    { intent := "farewell", confidence := 9/10 }
  else if containsSub message.data "?".data then
    { intent := "question", confidence := 7/10 }
  else
    { intent := "statement", confidence := 6/10 }

/-- Python `dict` lookup `d.get(q)` on a string-keyed association list kept in
insertion order (first match; a well-formed dict state has unique keys). -/
def alist_get {β : Type} : List (String × β) → String → Option β
  | [], _ => none
  | (k, v) :: rest, q => if k = q then some v else alist_get rest q

/-- `RoomManager.__init__`: `self.rooms`, mapping `room_id` to the set of
`user_id`s, as an association list of duplicate-free member lists. -/
abbrev Rooms := List (String × List String)

/-- Python `set.add`: inserts `u` if absent, no-op if present. -/
def setAdd (u : String) (s : List String) : List String :=
  if u ∈ s then s else s ++ [u]

/-- In-place mutation of the set stored at key `r`
(Python `self.rooms[room_id].add(...)` / `.remove(...)`): every entry whose
key is `r` gets `f` applied to its value (a well-formed dict state has at
most one such entry), all other entries are untouched. -/
def updateRoom : Rooms → String → (List String → List String) → Rooms
  | [], _, _ => []
  | (k, v) :: rest, r, f =>
    if k = r then (k, f v) :: updateRoom rest r f
    else (k, v) :: updateRoom rest r f

/-- Result dict of the `RoomManager` operations; `none` fields model keys
absent from the returned Python dict. -/
structure RoomResult where
  success : Bool
  error : Option String
  room_id : Option String
  user_id : Option String
  member_count : Option Nat
deriving DecidableEq

/-- `RoomManager.create_room`: fails if `room_id in self.rooms`, otherwise
stores an empty set under `room_id`. -/
def create_room (st : Rooms) (room_id : String) : RoomResult × Rooms :=
  if (alist_get st room_id).isSome then
    ({ success := false, error := some "Room already exists", room_id := none,
       user_id := none, member_count := none }, st)
  else
    ({ success := true, error := none, room_id := some room_id,
       user_id := none, member_count := none }, st ++ [(room_id, [])])

/-- `RoomManager.join_room`: auto-creates the room when absent, adds the user
to its set, and reports `len(self.rooms[room_id])` after the add. -/
def join_room (st : Rooms) (room_id user_id : String) : RoomResult × Rooms :=
  let st1 := if (alist_get st room_id).isSome then st else st ++ [(room_id, [])]
  let st2 := updateRoom st1 room_id (setAdd user_id)
  ({ success := true, error := none, room_id := some room_id,
     user_id := some user_id,
     member_count := some ((alist_get st2 room_id).getD []).length }, st2)

/-- `RoomManager.leave_room`: removes the user only when `room_id in
self.rooms and user_id in self.rooms[room_id]`; otherwise returns
`{"success": False, "error": "User not in room"}` unchanged. -/
def leave_room (st : Rooms) (room_id user_id : String) : RoomResult × Rooms :=
  match alist_get st room_id with
  | some ms =>
    if user_id ∈ ms then
      ({ success := true, error := none, room_id := none, user_id := none,
         member_count := none }, updateRoom st room_id fun l => l.erase user_id)
    else
      ({ success := false, error := some "User not in room", room_id := none,
         user_id := none, member_count := none }, st)
  | none =>
    ({ success := false, error := some "User not in room", room_id := none,
       user_id := none, member_count := none }, st)

/-- `RoomManager.get_room_members`: `list(self.rooms.get(room_id, set()))`. -/
def get_room_members (st : Rooms) (room_id : String) : List String :=
  (alist_get st room_id).getD []

/-- `RoomManager.list_rooms`: `room_id` with `len(members)` per room, in
insertion order. -/
def list_rooms (st : Rooms) : List (String × Nat) :=
  st.map fun p => (p.1, p.2.length)

/-- The mutable state of all live agents reachable through the graphbus
router: the ConversationAgent history and the RoomManager rooms
(the IntentClassifierAgent and ResponseGeneratorAgent hold no state). -/
structure SystemState where
  history : List Msg
  rooms : Rooms
deriving DecidableEq

/-- `invoke("IntentClassifierAgent", "classify_intent", message=...)`: the
method reads and writes no agent state. -/
def classify_intent_op (sys : SystemState) (message : String) :
    SystemState × IntentResult :=
  (sys, classify_intent message)

/-- `invoke("RoomManager", "get_room_members", ...)`: a read-only call. -/
def get_room_members_op (sys : SystemState) (room_id : String) :
    SystemState × List String :=
  (sys, get_room_members sys.rooms room_id)

/-- `invoke("RoomManager", "list_rooms")`: a read-only call. -/
def list_rooms_op (sys : SystemState) : SystemState × List (String × Nat) :=
  (sys, list_rooms sys.rooms)

/-- The `responses` lookup table in `ResponseGeneratorAgent.generate_response`. -/
def responses : List (String × String) :=
  [("greeting", "Hello! How can I help you today?"),
   ("farewell", "Goodbye! Have a great day!"),
   ("question", "That\x27s an interesting question. Let me think about that..."),
   ("statement", "I understand. Tell me more!")]

/-- Result dict of `ResponseGeneratorAgent.generate_response`. -/
structure GenResult where
  response : String
  intent : String
  confidence : ℚ
deriving DecidableEq

/-- `ResponseGeneratorAgent.generate_response`: invokes the classifier, picks
the canned text (default `"I\x27m not sure how to respond to that."`), then
invokes `add_message` twice — user message, then assistant response.  The
source reads the classifier dict with `.get("intent", "unknown")` and
`.get("confidence", 0.0)`; both keys are always present, so the plain field
reads are the same function. -/
def generate_response (sys : SystemState) (message : String) :
    SystemState × GenResult :=
  let step1 := classify_intent_op sys message
  let intent := step1.2.intent
  let response_text :=
    (alist_get responses intent).getD "I\x27m not sure how to respond to that."
  let step2 := add_message step1.1.history "user" message
  let sys2 : SystemState := { step1.1 with history := step2.2 }
  let step3 := add_message sys2.history "assistant" response_text
  let sys3 : SystemState := { sys2 with history := step3.2 }
  (sys3, { response := response_text, intent := intent,
           confidence := step1.2.confidence })

/-- Every member list of every room is duplicate-free. -/
def membersUnique : Rooms → Bool
  | [] => true
  | p :: t => decide p.2.Nodup && membersUnique t

lemma foldl_add_message (msgs : List Msg) (init : List Msg) :
    msgs.foldl (fun h m => (add_message h m.1 m.2).2) init = init ++ msgs := by
  induction msgs generalizing init with
  | nil => simp
  | cons m t ih => simpa [add_message, List.append_assoc] using ih (init ++ [m])

lemma run_add_messages_eq (msgs : List Msg) : run_add_messages msgs = msgs := by
  simpa [run_add_messages] using foldl_add_message msgs []

/-- A key already bound in `st` stays bound after appending entries. -/
lemma alist_get_append_some {β : Type} {st : List (String × β)} {q : String}
    {v : β} (l2 : List (String × β)) (h : alist_get st q = some v) :
    alist_get (st ++ l2) q = some v := by
  induction st with
  | nil => simp [alist_get] at h
  | cons p t ih =>
    obtain ⟨k, w⟩ := p
    by_cases hk : k = q
    · simp [alist_get, hk] at h ⊢; exact h
    · simp [alist_get, hk] at h ⊢; exact ih h

/-- Lookup past a prefix that does not bind the key. -/
lemma alist_get_append_none {β : Type} {st : List (String × β)} {q : String}
    (l2 : List (String × β)) (h : alist_get st q = none) :
    alist_get (st ++ l2) q = alist_get l2 q := by
  induction st with
  | nil => simp
  | cons p t ih =>
    obtain ⟨k, w⟩ := p
    by_cases hk : k = q
    · simp [alist_get, hk] at h
    · simp [alist_get, hk] at h ⊢; exact ih h

/-- `updateRoom` rewrites the value at the updated key. -/
lemma alist_get_updateRoom_self (st : Rooms) (r : String)
    (f : List String → List String) :
    alist_get (updateRoom st r f) r = (alist_get st r).map f := by
  induction st with
  | nil => simp [updateRoom, alist_get]
  | cons p t ih =>
    obtain ⟨k, w⟩ := p
    by_cases hk : k = r
    · subst hk; simp [updateRoom, alist_get]
    · simpa [updateRoom, alist_get, hk] using ih

/-- `updateRoom` binds exactly the keys that were bound before. -/
lemma alist_get_updateRoom_isSome (st : Rooms) (r q : String)
    (f : List String → List String) :
    (alist_get (updateRoom st r f) q).isSome = (alist_get st q).isSome := by
  induction st with
  | nil => simp [updateRoom, alist_get]
  | cons p t ih =>
    obtain ⟨k, w⟩ := p
    by_cases hkr : k = r
    · subst hkr
      by_cases hkq : k = q
      · subst hkq; simp [updateRoom, alist_get]
      · simpa [updateRoom, alist_get, hkq] using ih
    · by_cases hkq : k = q
      · subst hkq; simp [updateRoom, alist_get, hkr]
      · simpa [updateRoom, alist_get, hkr, hkq] using ih

/-- Updating the same key twice composes the two mutations. -/
lemma updateRoom_updateRoom (st : Rooms) (r : String)
    (f g : List String → List String) :
    updateRoom (updateRoom st r f) r g = updateRoom st r fun l => g (f l) := by
  induction st with
  | nil => rfl
  | cons p t ih =>
    obtain ⟨k, w⟩ := p
    by_cases hk : k = r
    · subst hk; simp [updateRoom, ih]
    · simp [updateRoom, hk, ih]

/-- Pointwise-equal mutations update equally. -/
lemma updateRoom_congr (st : Rooms) (r : String)
    {f g : List String → List String} (h : ∀ l, f l = g l) :
    updateRoom st r f = updateRoom st r g := by
  induction st with
  | nil => rfl
  | cons p t ih =>
    obtain ⟨k, w⟩ := p
    by_cases hk : k = r
    · subst hk; simp [updateRoom, h, ih]
    · simp [updateRoom, hk, ih]

/-- Adding an element twice to a set is the same as adding it once. -/
lemma setAdd_setAdd (u : String) (l : List String) :
    setAdd u (setAdd u l) = setAdd u l := by
  unfold setAdd
  by_cases h : u ∈ l <;> simp [h]

/-- `set.add` keeps the member list duplicate-free. -/
lemma setAdd_nodup (u : String) {l : List String} (h : l.Nodup) :
    (setAdd u l).Nodup := by
  unfold setAdd
  by_cases hm : u ∈ l <;> simp [hm, List.nodup_append, h]

lemma membersUnique_iff (st : Rooms) :
    membersUnique st = true ↔ ∀ p ∈ st, List.Nodup p.2 := by
  induction st with
  | nil => simp [membersUnique]
  | cons p t ih => simp [membersUnique, ih]

/-- Appending a fresh empty room keeps member lists duplicate-free. -/
lemma membersUnique_append_nil {st : Rooms} (r : String)
    (h : membersUnique st = true) :
    membersUnique (st ++ [(r, [])]) = true := by
  induction st with
  | nil => simp [membersUnique]
  | cons p t ih =>
    simp only [membersUnique, Bool.and_eq_true] at h
    simp only [List.cons_append, membersUnique, Bool.and_eq_true]
    exact ⟨h.1, ih h.2⟩

/-- A nodup-preserving mutation keeps member lists duplicate-free. -/
lemma membersUnique_updateRoom {st : Rooms} (r : String)
    {f : List String → List String} (hf : ∀ l, l.Nodup → (f l).Nodup)
    (h : membersUnique st = true) :
    membersUnique (updateRoom st r f) = true := by
  induction st with
  | nil => rfl
  | cons p t ih =>
    obtain ⟨k, w⟩ := p
    simp only [membersUnique, Bool.and_eq_true, decide_eq_true_iff] at h
    have ht := ih h.2
    by_cases hk : k = r
    · subst hk
      simp only [updateRoom, if_pos rfl, membersUnique, Bool.and_eq_true,
        decide_eq_true_iff]
      exact ⟨hf w h.1, ht⟩
    · simp only [updateRoom, if_neg hk, membersUnique, Bool.and_eq_true,
        decide_eq_true_iff]
      exact ⟨h.1, ht⟩

/-- C1 counterexample: the claim says `get_history(limit)` with `limit ≤ 0`
returns an empty sequence, but at `limit = 0` the slice `history[-0:]` is
`history[0:]`, the whole history: on the one-record history it returns that
record. -/
theorem get_history_zero_limit_not_empty :
    (0 : Int) ≤ 0 ∧ get_history [("user", "a")] 0 ≠ [] := by
  exact ⟨by decide, by decide⟩

/-- C1 (amended): for `limit ≤ 0`, `get_history(limit)` returns the history
with its first `-limit` records removed — in particular the whole history
when `limit = 0` — rather than an empty sequence. -/
theorem get_history_nonpos_limit (history : List Msg) (limit : Int)
    (h : limit ≤ 0) :
    get_history history limit = history.drop limit.natAbs := by
  unfold get_history pySliceFrom
  have h1 : ¬ (-limit < 0) := by omega
  rw [if_neg h1]
  congr 1
  omega

/-- Witness for `get_history_nonpos_limit` at `limit = -2` on a three-record
history: the first two records are dropped. -/
theorem get_history_nonpos_limit_witness :
    (-2 : Int) ≤ 0 ∧
    get_history [("user", "a"), ("user", "b"), ("user", "c")] (-2)
      = [("user", "c")] := by
  refine ⟨by decide, ?_⟩
  rw [get_history_nonpos_limit _ _ (by decide)]
  decide

/-- C2 counterexample: after one `add_message` on a fresh agent,
`get_history(0)` returns one record, not `min(0, 1) = 0` records. -/
theorem get_history_min_violated_at_zero :
    (get_history (run_add_messages [("user", "a")]) 0).length
      ≠ min ((0 : Int)).toNat (run_add_messages [("user", "a")]).length := by
  decide

/-- C2 (amended): for every sequence of `add_message` calls on a fresh
ConversationAgent and every `limit ≥ 1`, `get_history(limit)` returns
exactly `min(limit, N)` most-recent records in the order they were added
(`N` the number of calls); at `limit = 0` the code instead returns all `N`
records. -/
theorem get_history_recent_window (msgs : List Msg) (limit : Int)
    (h : 1 ≤ limit) :
    run_add_messages msgs = msgs ∧
    get_history (run_add_messages msgs) limit
      = msgs.drop (msgs.length - limit.toNat) ∧
    (get_history (run_add_messages msgs) limit).length
      = min limit.toNat msgs.length := by
  have h1 : -limit < 0 := by omega
  refine ⟨run_add_messages_eq msgs, ?_, ?_⟩
  · rw [run_add_messages_eq]
    unfold get_history pySliceFrom
    rw [if_pos h1]
    congr 1
    omega
  · rw [run_add_messages_eq]
    unfold get_history pySliceFrom
    rw [if_pos h1, List.length_drop]
    omega

/-- Witness for `get_history_recent_window`: three calls, `limit = 2` keeps
the last two records in order. -/
theorem get_history_recent_window_witness :
    (1 : Int) ≤ 2 ∧
    (run_add_messages [("user", "a"), ("user", "b"), ("user", "c")]
        = [("user", "a"), ("user", "b"), ("user", "c")] ∧
      get_history
          (run_add_messages [("user", "a"), ("user", "b"), ("user", "c")]) 2
        = [("user", "a"), ("user", "b"), ("user", "c")].drop
            ([("user", "a"), ("user", "b"), ("user", "c")].length
              - (2 : Int).toNat) ∧
      (get_history
          (run_add_messages [("user", "a"), ("user", "b"), ("user", "c")])
          2).length
        = min (2 : Int).toNat
            [("user", "a"), ("user", "b"), ("user", "c")].length) :=
  ⟨by decide,
    get_history_recent_window [("user", "a"), ("user", "b"), ("user", "c")] 2
      (by decide)⟩

/-- C7: `clear_history()` empties the history — any later `get_history`
returns no records — and reports the prior count with success true. -/
theorem clear_history_spec (history : List Msg) (limit : Int) :
    (clear_history history).2 = [] ∧
    (clear_history history).1.success = true ∧
    (clear_history history).1.cleared_count = history.length ∧
    get_history (clear_history history).2 limit = [] := by
  refine ⟨rfl, rfl, rfl, ?_⟩
  unfold clear_history get_history pySliceFrom
  split <;> simp

/-- C8: `classify_intent` is deterministic and stateless: from any two system
states the same message classifies identically, and the invocation leaves the
state untouched. -/
theorem classify_intent_pure (s1 s2 : SystemState) (m : String) :
    (classify_intent_op s1 m).2 = (classify_intent_op s2 m).2 ∧
    (classify_intent_op s1 m).1 = s1 :=
  ⟨rfl, rfl⟩

/-- C4: `"hello"` classifies as greeting with confidence 0.9, and
`generate_response("hello")` returns the fixed greeting text and appends
exactly two records — the user message then the assistant response — leaving
all other agent state alone. -/
theorem generate_response_hello (sys : SystemState) :
    classify_intent "hello" = { intent := "greeting", confidence := 9/10 } ∧
    (generate_response sys "hello").2.response
      = "Hello! How can I help you today?" ∧
    (generate_response sys "hello").1.history
      = sys.history ++ [("user", "hello"),
          ("assistant", "Hello! How can I help you today?")] ∧
    (generate_response sys "hello").1.rooms = sys.rooms := by
  refine ⟨rfl, rfl, ?_, rfl⟩
  show (sys.history ++ [("user", "hello")])
      ++ [("assistant", "Hello! How can I help you today?")]
    = sys.history ++ [("user", "hello"),
        ("assistant", "Hello! How can I help you today?")]
  simp

/-- C10: `get_room_members` on a room that was never created or joined
returns the empty list and leaves every room untouched. -/
theorem get_room_members_absent (st : Rooms) (sys : SystemState)
    (q : String) (h : alist_get st q = none) :
    get_room_members st q = [] ∧ (get_room_members_op sys q).1 = sys := by
  refine ⟨?_, rfl⟩
  unfold get_room_members
  rw [h]
  rfl

/-- Witness for `get_room_members_absent` on the empty room table. -/
theorem get_room_members_absent_witness :
    alist_get ([] : Rooms) "lobby" = none ∧
    (get_room_members ([] : Rooms) "lobby" = [] ∧
      (get_room_members_op { history := [], rooms := [] } "lobby").1
        = { history := [], rooms := [] }) :=
  ⟨rfl, get_room_members_absent [] { history := [], rooms := [] } "lobby" rfl⟩

/-- C6: the domain-level soft failures return `success = false` with an error
reason and leave the rooms unchanged: `create_room` on an existing room, and
`leave_room` whenever the room is absent or the user is not a member. -/
theorem soft_failures_structured (st : Rooms) (r u : String) :
    ((alist_get st r).isSome = true →
      (create_room st r).1.success = false ∧
      (create_room st r).1.error = some "Room already exists" ∧
      (create_room st r).2 = st) ∧
    (u ∉ ((alist_get st r).getD []) →
      (leave_room st r u).1.success = false ∧
      (leave_room st r u).1.error = some "User not in room" ∧
      (leave_room st r u).2 = st) := by
  constructor
  · intro hs
    simp [create_room, hs]
  · intro hn
    unfold leave_room
    cases hms : alist_get st r with
    | none => exact ⟨rfl, rfl, rfl⟩
    | some ms =>
      rw [hms] at hn
      simp only [Option.getD_some] at hn
      simp [hn]

/-- Witness for `soft_failures_structured`: room `"a"` exists with member
`"x"`; creating `"a"` again fails, and `"y"` leaving `"a"` fails, both
without touching the state. -/
theorem soft_failures_structured_witness :
    ((alist_get [("a", ["x"])] "a").isSome = true ∧
      "y" ∉ ((alist_get [("a", ["x"])] "a").getD [])) ∧
    ((create_room [("a", ["x"])] "a").1.success = false ∧
      (create_room [("a", ["x"])] "a").1.error = some "Room already exists" ∧
      (create_room [("a", ["x"])] "a").2 = [("a", ["x"])]) ∧
    ((leave_room [("a", ["x"])] "a" "y").1.success = false ∧
      (leave_room [("a", ["x"])] "a" "y").1.error = some "User not in room" ∧
      (leave_room [("a", ["x"])] "a" "y").2 = [("a", ["x"])]) :=
  ⟨⟨by decide, by decide⟩,
    (soft_failures_structured [("a", ["x"])] "a" "y").1 (by decide),
    (soft_failures_structured [("a", ["x"])] "a" "y").2 (by decide)⟩

/-- C3: on a state without room `"r1"`, `join_room("r1","u1")` creates the
room and reports member_count 1; `leave_room("r1","u1")` then succeeds and
leaves the room empty; `leave_room("r1","u2")` for a user who never joined
fails with an error. -/
theorem room_join_leave_scenario (st : Rooms) (h : alist_get st "r1" = none) :
    (join_room st "r1" "u1").1.success = true ∧
    (join_room st "r1" "u1").1.member_count = some 1 ∧
    (alist_get (join_room st "r1" "u1").2 "r1").isSome = true ∧
    (leave_room (join_room st "r1" "u1").2 "r1" "u1").1.success = true ∧
    get_room_members (leave_room (join_room st "r1" "u1").2 "r1" "u1").2 "r1"
      = [] ∧
    (leave_room (join_room st "r1" "u1").2 "r1" "u2").1.success = false ∧
    (leave_room (join_room st "r1" "u1").2 "r1" "u2").1.error.isSome = true := by
  have h0 : (alist_get st "r1").isSome = false := by rw [h]; rfl
  have h1 : alist_get (st ++ [("r1", [])]) "r1" = some [] := by
    rw [alist_get_append_none _ h]; rfl
  have hjoin2 : (join_room st "r1" "u1").2
      = updateRoom (st ++ [("r1", [])]) "r1" (setAdd "u1") := by
    unfold join_room
    simp [h0]
  have h2 : alist_get ((join_room st "r1" "u1").2) "r1" = some ["u1"] := by
    rw [hjoin2, alist_get_updateRoom_self, h1]; rfl
  have hleave1 : leave_room (join_room st "r1" "u1").2 "r1" "u1"
      = ({ success := true, error := none, room_id := none, user_id := none,
           member_count := none },
         updateRoom (join_room st "r1" "u1").2 "r1" fun l => l.erase "u1") := by
    unfold leave_room
    rw [h2]
    simp
  have hleave2 : leave_room (join_room st "r1" "u1").2 "r1" "u2"
      = ({ success := false, error := some "User not in room", room_id := none,
           user_id := none, member_count := none },
         (join_room st "r1" "u1").2) := by
    unfold leave_room
    rw [h2]
    simp
  have hmc : (join_room st "r1" "u1").1.member_count
      = some ((alist_get (join_room st "r1" "u1").2 "r1").getD []).length := rfl
  refine ⟨rfl, ?_, ?_, ?_, ?_, ?_, ?_⟩
  · rw [hmc, h2]; rfl
  · rw [h2]; rfl
  · rw [hleave1]
  · rw [hleave1]
    unfold get_room_members
    rw [alist_get_updateRoom_self, h2]
    rfl
  · rw [hleave2]
  · rw [hleave2]; rfl

/-- Witness for `room_join_leave_scenario`: the empty room table. -/
theorem room_join_leave_scenario_witness :
    alist_get ([] : Rooms) "r1" = none ∧
    ((join_room ([] : Rooms) "r1" "u1").1.success = true ∧
      (join_room ([] : Rooms) "r1" "u1").1.member_count = some 1 ∧
      (alist_get (join_room ([] : Rooms) "r1" "u1").2 "r1").isSome = true ∧
      (leave_room (join_room ([] : Rooms) "r1" "u1").2 "r1" "u1").1.success
        = true ∧
      get_room_members
          (leave_room (join_room ([] : Rooms) "r1" "u1").2 "r1" "u1").2 "r1"
        = [] ∧
      (leave_room (join_room ([] : Rooms) "r1" "u1").2 "r1" "u2").1.success
        = false ∧
      (leave_room (join_room ([] : Rooms) "r1" "u1").2 "r1"
          "u2").1.error.isSome = true) :=
  ⟨rfl, room_join_leave_scenario [] rfl⟩

/-- C9: `join_room` is idempotent — a repeated join leaves the rooms exactly
as after the first join, still succeeds, and reports the same member count. -/
theorem join_room_idempotent (st : Rooms) (r u : String) :
    (join_room (join_room st r u).2 r u).2 = (join_room st r u).2 ∧
    (join_room (join_room st r u).2 r u).1.success = true ∧
    (join_room (join_room st r u).2 r u).1.member_count
      = (join_room st r u).1.member_count := by
  have hdef : (join_room st r u).2
      = updateRoom (if (alist_get st r).isSome then st else st ++ [(r, [])])
          r (setAdd u) := rfl
  have hsome : (alist_get (join_room st r u).2 r).isSome = true := by
    rw [hdef, alist_get_updateRoom_isSome]
    cases hq : alist_get st r with
    | some v => simp [hq]
    | none =>
      simp only [hq, Option.isSome_none, Bool.false_eq_true, if_false]
      rw [alist_get_append_none _ hq]
      simp [alist_get]
  have hdef2 : (join_room (join_room st r u).2 r u).2
      = updateRoom (if (alist_get (join_room st r u).2 r).isSome
          then (join_room st r u).2
          else (join_room st r u).2 ++ [(r, [])]) r (setAdd u) := rfl
  have hstate : (join_room (join_room st r u).2 r u).2 = (join_room st r u).2 := by
    rw [hdef2, hsome]
    simp only [if_true]
    conv_lhs => rw [hdef]
    conv_rhs => rw [hdef]
    rw [updateRoom_updateRoom]
    exact updateRoom_congr _ _ fun l => setAdd_setAdd u l
  have hmc1 : (join_room (join_room st r u).2 r u).1.member_count
      = some ((alist_get (join_room (join_room st r u).2 r u).2 r).getD
          []).length := rfl
  have hmc2 : (join_room st r u).1.member_count
      = some ((alist_get (join_room st r u).2 r).getD []).length := rfl
  exact ⟨hstate, rfl, by rw [hmc1, hmc2, hstate]⟩

/-- C5: every RoomManager operation preserves the state invariant — a room
key created or joined once stays present, and member lists stay
duplicate-free; the two read operations do not modify the state at all. -/
theorem room_manager_invariants (st : Rooms) (r u q : String)
    (sys : SystemState)
    (hkey : (alist_get st q).isSome = true)
    (hnd : membersUnique st = true) :
    (alist_get (create_room st r).2 q).isSome = true ∧
    membersUnique (create_room st r).2 = true ∧
    (alist_get (join_room st r u).2 q).isSome = true ∧
    membersUnique (join_room st r u).2 = true ∧
    (alist_get (leave_room st r u).2 q).isSome = true ∧
    membersUnique (leave_room st r u).2 = true ∧
    (get_room_members_op sys q).1 = sys ∧
    (list_rooms_op sys).1 = sys := by
  obtain ⟨v, hv⟩ := Option.isSome_iff_exists.mp hkey
  have happkey : ∀ l2 : Rooms, (alist_get (st ++ l2) q).isSome = true := by
    intro l2
    rw [alist_get_append_some l2 hv]
    rfl
  have hst1key : (alist_get (if (alist_get st r).isSome then st
      else st ++ [(r, [])]) q).isSome = true := by
    split
    · exact hkey
    · exact happkey _
  have hst1nd : membersUnique (if (alist_get st r).isSome then st
      else st ++ [(r, [])]) = true := by
    split
    · exact hnd
    · exact membersUnique_append_nil r hnd
  have hcr : (create_room st r).2
      = if (alist_get st r).isSome then st else st ++ [(r, [])] := by
    unfold create_room
    split <;> rfl
  have hjn : (join_room st r u).2
      = updateRoom (if (alist_get st r).isSome then st else st ++ [(r, [])])
          r (setAdd u) := rfl
  refine ⟨?_, ?_, ?_, ?_, ?_, ?_, rfl, rfl⟩
  · rw [hcr]; exact hst1key
  · rw [hcr]; exact hst1nd
  · rw [hjn, alist_get_updateRoom_isSome]; exact hst1key
  · rw [hjn]
    exact membersUnique_updateRoom r (fun l hl => setAdd_nodup u hl) hst1nd
  · unfold leave_room
    cases hms : alist_get st r with
    | none => exact hkey
    | some ms =>
      by_cases hu : u ∈ ms
      · simp only [hu, if_true]
        rw [alist_get_updateRoom_isSome]
        exact hkey
      · simp only [hu, if_false]
        exact hkey
  · unfold leave_room
    cases hms : alist_get st r with
    | none => exact hnd
    | some ms =>
      by_cases hu : u ∈ ms
      · simp only [hu, if_true]
        exact membersUnique_updateRoom r
          (fun l hl => hl.sublist (List.erase_sublist u l)) hnd
      · simp only [hu, if_false]
        exact hnd

/-- Witness for `room_manager_invariants`: room `"a"` with member `"x"`
exists and stays present with duplicate-free members under creating room
`"b"`, user `"y"` joining and leaving room `"b"`, and both reads. -/
theorem room_manager_invariants_witness :
    ((alist_get [("a", ["x"])] "a").isSome = true ∧
      membersUnique [("a", ["x"])] = true) ∧
    ((alist_get (create_room [("a", ["x"])] "b").2 "a").isSome = true ∧
      membersUnique (create_room [("a", ["x"])] "b").2 = true ∧
      (alist_get (join_room [("a", ["x"])] "b" "y").2 "a").isSome = true ∧
      membersUnique (join_room [("a", ["x"])] "b" "y").2 = true ∧
      (alist_get (leave_room [("a", ["x"])] "b" "y").2 "a").isSome = true ∧
      membersUnique (leave_room [("a", ["x"])] "b" "y").2 = true ∧
      (get_room_members_op { history := [], rooms := [("a", ["x"])] } "a").1
        = { history := [], rooms := [("a", ["x"])] } ∧
      (list_rooms_op { history := [], rooms := [("a", ["x"])] }).1
        = { history := [], rooms := [("a", ["x"])] }) :=
  ⟨⟨by decide, by decide⟩,
    room_manager_invariants [("a", ["x"])] "b" "y" "a"
      { history := [], rooms := [("a", ["x"])] } (by decide) (by decide)⟩

end GraphbusUI
